import Mathlib

/-
Verification development for the perky configuration-file library
(package `perky`: `__init__.py`, `tokenize.py`, `utility.py`).

The Python source is shallowly embedded: pure functions become Lean
functions, the line-oriented parser threads its remaining lines
explicitly, Python exceptions become an `Except` error type, and
recursion that Python drives by iterator exhaustion is bounded by an
explicit fuel argument (always instantiated large enough that the
`outOfFuel` branch is unreachable; every recursive call consumes input).

Python dicts are embedded as insertion-ordered association lists, which
matches CPython dict semantics: iteration order is insertion order,
`d[k] = v` overwrites in place when `k` is present and appends otherwise.
-/

namespace Perky

/-- Python exceptions that the perky engine can raise.  `formatError` is
`perky.PerkyFormatError` (we model its message; the optional
tokens/line diagnostic payload is not modelled).  The other
constructors are the builtin Python exceptions that escape the engine:
`typeError` (e.g. a call missing a required positional argument),
`runtimeError` (`raise RuntimeError(...)`), `literalError` models the
`SyntaxError` raised by `ast.literal_eval` on an unterminated string
literal, `nameError` is an undefined global name lookup,
`assertionError` a failed `assert`, and `stopIteration` a
`StopIteration` escaping a plain (non-generator) call.  `outOfFuel` is
not a Python error: it is the unreachable fuel-exhaustion branch of the
embedding. -/
inductive PyErr where
  | formatError (message : String)
  | typeError (message : String)
  | runtimeError (message : String)
  | literalError
  | nameError (name : String)
  | assertionError
  | stopIteration
  | outOfFuel
deriving DecidableEq, Repr

/-! ## Python string helpers -/

def squote : Char := Char.ofNat 39

def dquote : Char := Char.ofNat 34

def bslash : Char := Char.ofNat 92

/-- The ASCII characters for which Python `str.isspace()` is true.
All inputs in this development are ASCII, so the wider Unicode
whitespace classes are irrelevant. -/
def isPySpace (c : Char) : Bool :=
  c = ' ' || c = '\t' || c = '\n' || c = '\r' || c = Char.ofNat 11 || c = Char.ofNat 12

def pyRstripL (l : List Char) : List Char :=
  (l.reverse.dropWhile isPySpace).reverse

/-- Python `str.rstrip()`. -/
def pyRstrip (s : String) : String := String.mk (pyRstripL s.data)

/-- Python `str.lstrip()`. -/
def pyLstrip (s : String) : String := String.mk (s.data.dropWhile isPySpace)

/-- Python `str.strip()`. -/
def pyStrip (s : String) : String := pyLstrip (pyRstrip s)

/-- Python `"".join(s.split())`: all whitespace removed. -/
def removeWs (s : String) : String :=
  String.mk (s.data.filter (fun c => !(isPySpace c)))

def isPyAlnumChar (c : Char) : Bool := c.isAlpha || c.isDigit

/-- Python `str.isalnum()` restricted to ASCII alphanumerics (all
strings exercised here are ASCII). -/
def pyIsAlnum (s : String) : Bool :=
  !s.data.isEmpty && s.data.all isPyAlnumChar

/-- Python `repr()` of a string containing no quote or escape
characters: the text wrapped in single quotes.  Only used to build
error messages for such plain strings. -/
def pyReprStr (s : String) : String :=
  String.mk (squote :: s.data ++ [squote])

def splitNlL : List Char → List (List Char)
  | [] => [[]]
  | c :: rest =>
    match splitNlL rest with
    | h :: t => if c = '\n' then [] :: h :: t else (c :: h) :: t
    | [] => [[c]]

/-- Python `s.split("\n")`. -/
def pySplitLines (s : String) : List String :=
  (splitNlL s.data).map String.mk

/-- Python `"\n".join(lines)`. -/
def joinNl : List String → String
  | [] => ""
  | [x] => x
  | x :: rest => x ++ "\n" ++ joinNl rest

/-- Number of occurrences of character `c` in `s`
(so Python `len(s.split(c)) = countChar s c + 1`). -/
def countChar (s : String) (c : Char) : Nat :=
  s.data.count c

/-- Remove the leading occurrence of `p` from `s` when present; this is
what `re.sub(r"(?m)^" + p, "", ...)` does to each line for a literal
whitespace pattern `p`. -/
def dropPre (p : String) (s : String) : String :=
  if p.data.isPrefixOf s.data then String.mk (s.data.drop p.data.length) else s

/-! ## Tokens (`tokenize.py`)

`WHITESPACE` tokens are never produced in this embedding because every
code path the parser uses runs the tokenizer with
`suppress_whitespace=True` (`LineParser`鈥檚 default, and the default of
`tokenize` itself). -/

inductive Tok where
  | string (s : String)
  | comment (s : String)
  | equals
  | leftCurly
  | rightCurly
  | leftSquare
  | rightSquare
  | tripleSingle
  | tripleDouble
  | emptyCurly
  | emptySquare
deriving DecidableEq, Repr

/-- The `value` component paired with each token by the tokenizer:
STRING/COMMENT carry their text, operator tokens carry their operator
characters.  `_parse_value` returns this for tokens it does not
special-case. -/
def Tok.text : Tok → String
  | .string s => s
  | .comment s => s
  | .equals => "="
  | .leftCurly => "\x7b"
  | .rightCurly => "\x7d"
  | .leftSquare => "["
  | .rightSquare => "]"
  | .tripleSingle => String.mk [squote, squote, squote]
  | .tripleDouble => String.mk [dquote, dquote, dquote]
  | .emptyCurly => "\x7b\x7d"
  | .emptySquare => "[]"

/-- `non_quoting_operators` in `tokenize.py`: the operator first
characters other than the two quotes. -/
def isNonQuotingOp (c : Char) : Bool :=
  c = '#' || c = '=' || c = '\x7b' || c = '\x7d' || c = '[' || c = ']'

/-- `parse_unquoted_string`: accumulate characters until a non-quoting
operator (pushed back) or end of line; returns the raw buffer and the
remaining characters (the caller right-strips the buffer). -/
def parseUnquoted : List Char → List Char × List Char
  | [] => ([], [])
  | c :: rest =>
    if isNonQuotingOp c then ([], c :: rest)
    else
      let (b, r) := parseUnquoted rest
      (c :: b, r)

/-- The character-consuming loop of `parse_quoted_string`: returns the
buffer built after the opening quote (including the closing quote when
one was found), whether the string was terminated, and the remaining
characters.  Note the faithful quirk: a backslash toggles the escape
flag and is itself never appended, so a pair of consecutive
backslashes contributes nothing to the buffer. -/
def pqLoop (q : Char) : List Char → Bool → List Char × Bool × List Char
  | [], _ => ([], false, [])
  | c :: rest, backslash =>
    if c = bslash then pqLoop q rest (!backslash)
    else if c = q && !backslash then ([q], true, rest)
    else
      let (buf, closed, rem) := pqLoop q rest false
      ((if backslash then bslash :: c :: buf else c :: buf), closed, rem)

/-- The escape processing performed by `ast.literal_eval` on the string
literal rebuilt by `parse_quoted_string`, for the escape sequences that
can reach it here (`\n`, `\t`, `\\`, `\'`, `\"`; any other backslash
pair is preserved verbatim, as in Python). -/
def pyUnescape : List Char → List Char
  | [] => []
  | c :: rest =>
    if c = bslash then
      match rest with
      | [] => [c]
      | e :: rest2 =>
        (if e = 'n' then ['\n']
         else if e = 't' then ['\t']
         else if e = bslash then [bslash]
         else if e = squote then [squote]
         else if e = dquote then [dquote]
         else [bslash, e]) ++ pyUnescape rest2
    else c :: pyUnescape rest

/-- `parse_quoted_string`: consume a quoted string whose opening quote
`q` was already consumed; evaluate the rebuilt literal.  An
unterminated string makes `ast.literal_eval` raise `SyntaxError`
(modelled by `literalError`). -/
def parseQuoted (q : Char) (i : List Char) : Except PyErr (String × List Char) :=
  let (buf, closed, rem) := pqLoop q i false
  if closed then .ok (String.mk (pyUnescape buf.dropLast), rem)
  else .error .literalError

def tripleTok (q : Char) : Tok :=
  if q = squote then .tripleSingle else .tripleDouble

def matchRight (c : Char) : Char :=
  if c = '\x7b' then '\x7d' else ']'

def leftTok (c : Char) : Tok :=
  if c = '\x7b' then .leftCurly else .leftSquare

def emptyTok (c : Char) : Tok :=
  if c = '\x7b' then .emptyCurly else .emptySquare

/-- After a lone left bracket, the tokenizer scans past whitespace; if
the matching right bracket follows it collapses the run into an empty
brackets token, otherwise it pushes everything back and yields the
plain left bracket.  (When the line ends during the scan the consumed
whitespace is simply gone, as in the source.) -/
def bracketScan (c : Char) (i : List Char) : Tok × List Char :=
  match i.dropWhile isPySpace with
  | [] => (leftTok c, [])
  | d :: rest => if d = matchRight c then (emptyTok c, rest) else (leftTok c, i)

def allSpace (l : List Char) : Bool := l.all isPySpace

/-- The main loop of `tokenize` (with `suppress_whitespace=True`, the
only mode the parser uses).  Fuel strictly decreases while at least one
character is consumed per step, so `tokenizeStr`'s bound keeps
`outOfFuel` unreachable. -/
def tokenizeLoop : Nat → List Char → Except PyErr (List Tok)
  | 0, _ => .error .outOfFuel
  | _ + 1, [] => .ok []
  | fuel + 1, c :: rest =>
    if isPySpace c then
      tokenizeLoop fuel (rest.dropWhile isPySpace)
    else if c = '#' then
      .ok [Tok.comment (String.mk rest)]
    else if c = squote || c = dquote then
      match rest with
      | c2 :: c3 :: rest2 =>
        if c2 = c && c3 = c then
          if !rest2.isEmpty && !allSpace rest2 then
            .error (.runtimeError
              ("tokenizer: found triple-quote followed by non-whitespace string "
                ++ pyReprStr (String.mk rest2)))
          else .ok [tripleTok c]
        else do
          let (s, rem) ← parseQuoted c rest
          let ts ← tokenizeLoop fuel rem
          .ok (Tok.string s :: ts)
      | _ => do
          let (s, rem) ← parseQuoted c rest
          let ts ← tokenizeLoop fuel rem
          .ok (Tok.string s :: ts)
    else if c = '\x7b' || c = '[' then
      match rest with
      | c2 :: rest2 =>
        if c2 = matchRight c then do
          let ts ← tokenizeLoop fuel rest2
          .ok (emptyTok c :: ts)
        else do
          let (t, rem) := bracketScan c rest
          let ts ← tokenizeLoop fuel rem
          .ok (t :: ts)
      | [] => do
          let ts ← tokenizeLoop fuel []
          .ok (leftTok c :: ts)
    else if c = '=' then do
      let ts ← tokenizeLoop fuel rest
      .ok (Tok.equals :: ts)
    else if c = '\x7d' then do
      let ts ← tokenizeLoop fuel rest
      .ok (Tok.rightCurly :: ts)
    else if c = ']' then do
      let ts ← tokenizeLoop fuel rest
      .ok (Tok.rightSquare :: ts)
    else
      let (b, rem) := parseUnquoted (c :: rest)
      do
        let ts ← tokenizeLoop fuel rem
        .ok (Tok.string (String.mk (pyRstripL b)) :: ts)

/-- `list(tokenize(line))` for one line. -/
def tokenizeStr (s : String) : Except PyErr (List Tok) :=
  tokenizeLoop (s.data.length + 1) s.data

/-! ## Parsed values and Python-dict association lists -/

/-- The trees perky produces: every scalar leaf is a string. -/
inductive Value where
  | str (s : String)
  | dict (entries : List (String × Value))
  | list (items : List Value)
deriving Repr, Inhabited

abbrev PDict := List (String × Value)

/-- CPython `d[k] = v` on an insertion-ordered dict: overwrite in place
(at the key's existing position) when present, else append.  Keys are
unique in every dict the engine builds, so replacing the first
occurrence is the exact dict semantics. -/
def dictInsert (d : PDict) (k : String) (v : Value) : PDict :=
  match d with
  | [] => [(k, v)]
  | (k1, v1) :: rest =>
    if k1 == k then (k, v) :: rest else (k1, v1) :: dictInsert rest k v

/-- CPython `d.get(k)` on an insertion-ordered dict. -/
def lookupD (d : PDict) (k : String) : Option Value :=
  match d.find? (fun p => p.1 == k) with
  | some p => some p.2
  | none => none

/-- The Python-dict invariant: each key occurs at most once. -/
def uniqueKeys : PDict → Bool
  | [] => true
  | (k, _) :: rest => !(rest.any (fun p => p.1 == k)) && uniqueKeys rest

/-! ## LineParser and the recursive-descent parser (`__init__.py`) -/

/-- `LineParser.__next__`: skip lines that tokenize to no tokens, stop
at end of input (the `StopIteration` that ends the caller's `for`
loop), propagate tokenizer exceptions. -/
def nextTokenLine : List String → Except PyErr (Option (List Tok × String × List String))
  | [] => .ok none
  | l :: rest =>
    match tokenizeStr l with
    | .error e => .error e
    | .ok [] => nextTokenLine rest
    | .ok ts => .ok (some (ts, l, rest))

/-- The raw-line collection loop of `_read_textblock`: right-strip each
raw line, stop at the line whose stripped content equals the marker.
Returns the collected (right-stripped) body, the right-stripped closing
line, and the remaining lines; `none` when input ends before a closing
marker (Python: `StopIteration` escapes `next_line`). -/
def textblockCollect (marker : String) : List String → Option (List String × String × List String)
  | [] => none
  | l :: rest =>
    let r := pyRstrip l
    if pyLstrip r = marker then some ([], r, rest)
    else
      match textblockCollect marker rest with
      | none => none
      | some (b, c, rem) => some (r :: b, c, rem)

/-- `Parser._read_textblock`.  The margin is the leading whitespace of
the closing-delimiter line (`line.partition(stripped)[0]`, which for a
line of the form whitespace-then-marker is exactly that whitespace);
when non-empty, every collected line must be empty or start with it;
the joined block then has the margin removed from each line
(`re.sub(r"(?m)^" + margin, "", s)`). -/
def readTextblock (marker : String) (lines : List String) : Except PyErr (String × List String) :=
  match textblockCollect marker lines with
  | none => .error .stopIteration
  | some (body, closing, rest) =>
    let margin := String.mk (closing.data.takeWhile isPySpace)
    if !margin.data.isEmpty && !(body.all (fun l => l.data.isEmpty || margin.data.isPrefixOf l.data)) then
      .error (.formatError "Format error: malformed line triple-quoted block")
    else
      .ok (joinNl (body.map (dropPre margin)), rest)

/-- The `TypeError` raised by `self._parse_pragma()` in `_read_dict` and
`_read_list`: `_parse_pragma(self, line)` requires the `line` argument
but both call sites pass none, so every directive line raises before
the pragma registry is ever consulted. -/
def pragmaCallError : PyErr :=
  .typeError ("_parse_pragma() missing 1 required positional argument: " ++ pyReprStr "line")

def invalidDictSeq : PyErr :=
  .formatError "Invalid token sequence: in dict, expected STRING = or STRING == VALUE or \x7d"

def repeatedKeyError (key : String) : PyErr :=
  .formatError ("Invalid Perky dict: repeated key " ++ pyReprStr key)

mutual

/-- `Parser._read_dict` (fresh `keys_seen` per call; `d` is the
container being filled, `seen` the keys declared in this container
during this call).  Returns the filled dict and the remaining lines;
end of input ends the loop like the closing brace does. -/
def readDict : Nat → PDict → List String → List String →
    Except PyErr (PDict × List String)
  | 0, _, _, _ => .error .outOfFuel
  | fuel + 1, d, seen, lines => do
    match ← nextTokenLine lines with
    | none => .ok (d, [])
    | some (tokens, _line, rest) =>
      match tokens with
      | Tok.equals :: _ => .error pragmaCallError
      | [Tok.rightCurly] => .ok (d, rest)
      | [Tok.comment _] => readDict fuel d seen rest
      | [Tok.string s, Tok.equals] =>
        let key := pyStrip s
        if seen.contains key then .error (repeatedKeyError key)
        else readDict fuel (dictInsert d key (.str "")) (key :: seen) rest
      | [Tok.string s, Tok.equals, t3] =>
        let key := pyStrip s
        if seen.contains key then .error (repeatedKeyError key)
        else do
          let (v, rem) ← parseValue fuel t3 rest
          readDict fuel (dictInsert d key v) (key :: seen) rem
      | _ => .error invalidDictSeq

/-- `Parser._read_list`. -/
def readList : Nat → List Value → List String →
    Except PyErr (List Value × List String)
  | 0, _, _ => .error .outOfFuel
  | fuel + 1, acc, lines => do
    match ← nextTokenLine lines with
    | none => .ok (acc, [])
    | some (tokens, _line, rest) =>
      match tokens with
      | Tok.equals :: _ => .error pragmaCallError
      | [t] =>
        match t with
        | Tok.rightSquare => .ok (acc, rest)
        | Tok.comment _ => readList fuel acc rest
        | _ => do
          let (v, rem) ← parseValue fuel t rest
          readList fuel (acc ++ [v]) rem
      | _ => .error (.formatError "Invalid token sequence: in list, expected one token")

/-- `Parser._parse_value`. -/
def parseValue : Nat → Tok → List String → Except PyErr (Value × List String)
  | 0, _, _ => .error .outOfFuel
  | fuel + 1, t, lines =>
    match t with
    | Tok.leftCurly => do
      let (d, rem) ← readDict fuel [] [] lines
      .ok (.dict d, rem)
    | Tok.leftSquare => do
      let (l, rem) ← readList fuel [] lines
      .ok (.list l, rem)
    | Tok.tripleSingle => do
      let (s, rem) ← readTextblock (String.mk [squote, squote, squote]) lines
      .ok (.str s, rem)
    | Tok.tripleDouble => do
      let (s, rem) ← readTextblock (String.mk [dquote, dquote, dquote]) lines
      .ok (.str s, rem)
    | Tok.emptyCurly => .ok (.dict [], lines)
    | Tok.emptySquare => .ok (.list [], lines)
    | Tok.string s => .ok (.str s, lines)
    | Tok.comment s => .ok (.str s, lines)
    | Tok.equals => .ok (.str Tok.equals.text, lines)
    | Tok.rightCurly => .ok (.str Tok.rightCurly.text, lines)
    | Tok.rightSquare => .ok (.str Tok.rightSquare.text, lines)

end

/-- `perky.loads` with the default (dict) root.  No pragma registry
parameter is modelled because the registry is unreachable: the lookup
in `_parse_pragma` is only ever invoked through the argument-less calls
`self._parse_pragma()`, which raise `TypeError` first. -/
def loads (s : String) : Except PyErr Value := do
  let lines := pySplitLines s
  let (d, _) ← readDict (2 * lines.length + 2) [] [] lines
  .ok (.dict d)

/-! ## `utility.py`: `merge_dicts_and_lists` -/

/-- Models Python `type(v)` over perky trees, for the
`assert isinstance(value, t)` checks of `_mdal_dict`. -/
def valueKind : Value → Nat
  | .str _ => 0
  | .dict _ => 1
  | .list _ => 2

def isContainerV : Value → Bool
  | .dict _ => true
  | .list _ => true
  | .str _ => false

/-- The `assert isinstance(root, dict)` loop at the top of
`_mdal_dict`. -/
def asDicts : List Value → Except PyErr (List PDict)
  | [] => .ok []
  | .dict d :: rest => do
    let ds ← asDicts rest
    .ok (d :: ds)
  | _ :: _ => .error .assertionError

/-- `_mdal_list`: assert every root is a list, concatenate. -/
def mdalListE : List Value → Except PyErr (List Value)
  | [] => .ok []
  | .list l :: rest => do
    let ls ← mdalListE rest
    .ok (l ++ ls)
  | _ :: _ => .error .assertionError

/-- The inner `for root in roots` collection of `_mdal_dict`: gather
the values the remaining roots hold at `k`, asserting each has the same
kind as the first value `t`. -/
def collectKey (k : String) (kind : Nat) : List PDict → Except PyErr (List Value)
  | [] => .ok []
  | r :: rest =>
    match lookupD r k with
    | none => collectKey k kind rest
    | some v =>
      if valueKind v = kind then do
        let vs ← collectKey k kind rest
        .ok (v :: vs)
      else .error .assertionError

/-- The `for key, value in root0.items()` body of `_mdal_dict`,
parameterized by the recursive dict sub-merge `sub`: a container value
already present in `d` is skipped ("only merge once!"); a container
value not yet in `d` collects the matching values of the remaining
roots and merges them (the dispatch on list-vs-dict follows the kind
of the first value, which the collection asserts all share); a scalar
simply overwrites. -/
def mdalRoot (sub : List Value → Except PyErr PDict) (d : PDict) :
    PDict → List PDict → Except PyErr PDict
  | [], _ => .ok d
  | (k, v) :: more, rest =>
    if isContainerV v then
      if (lookupD d k).isSome then mdalRoot sub d more rest
      else do
        let extra ← collectKey k (valueKind v) rest
        let merged ←
          match v with
          | .list _ => do
            let l ← mdalListE (v :: extra)
            pure (Value.list l)
          | _ => do
            let m ← sub (v :: extra)
            pure (Value.dict m)
        mdalRoot sub (dictInsert d k merged) more rest
    else
      mdalRoot sub (dictInsert d k v) more rest

/-- The `while roots:` loop of `_mdal_dict`, parameterized like
`mdalRoot`. -/
def mdalWhile (sub : List Value → Except PyErr PDict) (d : PDict) :
    List PDict → Except PyErr PDict
  | [] => .ok d
  | r :: rest => do
    let d2 ← mdalRoot sub d r rest
    mdalWhile sub d2 rest

/-- `_mdal_dict`.  After the isinstance asserts, a single root is
returned as a shallow copy; otherwise the roots are folded into a
fresh dict.  `fuel` bounds the nesting depth of recursive sub-merges
(one unit per level); the single-root case needs none. -/
def mdalDictF : Nat → List Value → Except PyErr PDict
  | 0, roots => do
    let ds ← asDicts roots
    match ds with
    | [r] => .ok r
    | _ => .error .outOfFuel
  | fuel + 1, roots => do
    let ds ← asDicts roots
    match ds with
    | [r] => .ok r
    | ds => mdalWhile (mdalDictF fuel) [] ds

mutual

/-- Node count of a tree, used only to pick a sufficient fuel bound for
`merge_dicts_and_lists`. -/
def sizeV : Value → Nat
  | .str _ => 1
  | .dict d => 1 + sizeEntries d
  | .list l => 1 + sizeItems l

/-- Auxiliary of `sizeV` for dict entry lists. -/
def sizeEntries : List (String × Value) → Nat
  | [] => 0
  | (_, v) :: rest => 1 + sizeV v + sizeEntries rest

/-- Auxiliary of `sizeV` for list item lists. -/
def sizeItems : List Value → Nat
  | [] => 0
  | v :: rest => 1 + sizeV v + sizeItems rest

end

/-- `merge_dicts_and_lists`: assert the roots are non-empty and the
first is a container, then dispatch to `_mdal_list` or `_mdal_dict`. -/
def merge_dicts_and_lists (roots : List Value) : Except PyErr Value :=
  match roots with
  | [] => .error .assertionError
  | root0 :: _ =>
    match root0 with
    | .list _ => do
      let l ← mdalListE roots
      pure (Value.list l)
    | .dict _ => do
      let d ← mdalDictF (sizeItems roots + 1) roots
      pure (Value.dict d)
    | .str _ => .error .assertionError

/-! ## Serializer (`__init__.py`, class `Serializer`)

Serializer inputs are arbitrary Python objects, so they get their own
type: a mapping key need not be a string and scalars may be
non-strings (`str(value)` is applied). -/

inductive PyObj where
  | str (s : String)
  | int (n : Int)
  | dict (items : List (PyObj × PyObj))
  | list (items : List PyObj)
deriving Repr, Inhabited

/-- Python `str()` on the scalar objects serialized here. -/
def pyStrOf : PyObj → String
  | .str s => s
  | .int n => toString n
  | .dict _ => ""
  | .list _ => ""

/-- The serializer state: indent level, finished lines, and the pending
partial line (`self.line`). -/
structure SerState where
  indent : Nat
  lines : List String
  line : String
deriving Repr

/-- `Serializer.newline`: flush the pending line plus `s`, prefixed by
the indent (four spaces per level, the default prefix). -/
def serNewline (st : SerState) (s : String) : SerState :=
  let l := String.mk (List.replicate (4 * st.indent) ' ') ++ st.line ++ s
  { st with line := "", lines := st.lines ++ [l] }

def startsWithQuote (s : String) : Bool :=
  match s.data with
  | c :: _ => c = squote || c = dquote
  | [] => false

/-- The quoting branch of `Serializer.quoted_string`: pick the quote
character producing fewer split pieces (ties favour double quotes),
then escape backslash, tab, newline and the chosen quote. -/
def quotePath (s : String) : String :=
  let q := if countChar s dquote ≤ countChar s squote then dquote else squote
  let escaped := s.data.flatMap (fun c =>
    if c = bslash then [bslash, bslash]
    else if c = '\t' then [bslash, 't']
    else if c = '\n' then [bslash, 'n']
    else if c = q then [bslash, q]
    else [c])
  String.mk (q :: escaped ++ [q])

/-- `Serializer.quoted_string`.  `must_quote` is an `or`-chain whose
first two tests are the leading/trailing-whitespace test and the
starts-with-a-quote test; when both are false Python evaluates
`any(c in s for c in non_quote_operators)` — but no name
`non_quote_operators` exists anywhere in the package (`tokenize.py`
defines `non_quoting_operators`), so that evaluation raises
`NameError`. -/
def quotedString (s : String) : Except PyErr String :=
  if decide (pyStrip s ≠ s) || startsWithQuote s then .ok (quotePath s)
  else .error (.nameError "non_quote_operators")

/-- `Serializer.serialize_textblock`. -/
def serTextblock (st : SerState) (text : String) : SerState :=
  let tq := String.mk [dquote, dquote, dquote]
  let st1 := serNewline st tq
  let st2 := { st1 with indent := st1.indent + 1 }
  let st3 := (pySplitLines text).foldl (fun a l => serNewline a l) st2
  let st4 := serNewline st3 tq
  { st4 with indent := st4.indent - 1 }

mutual

/-- `Serializer.serialize`: emit one `key = value` item per entry.  A
non-string key raises `RuntimeError`; a key that is purely alphanumeric
(after removing internal whitespace) is passed through `quoted_string`,
any other key is emitted raw. -/
def serMapping : Nat → SerState → List (PyObj × PyObj) → Except PyErr SerState
  | 0, _, _ => .error .outOfFuel
  | _ + 1, st, [] => .ok st
  | fuel + 1, st, (name, value) :: rest =>
    match name with
    | .str s => do
      let keyRepr ←
        if pyStrip s = s && pyIsAlnum (removeWs s) then quotedString s
        else pure s
      let st1 := { st with line := keyRepr ++ " = " }
      let st2 ← serValue fuel st1 value
      serMapping fuel st2 rest
    | _ => .error (.runtimeError "keys in perky dicts must always be strings!")

/-- `Serializer.serialize_dict`. -/
def serDict : Nat → SerState → List (PyObj × PyObj) → Except PyErr SerState
  | 0, _, _ => .error .outOfFuel
  | fuel + 1, st, items => do
    let st1 := serNewline st "\x7b"
    let st2 := { st1 with indent := st1.indent + 1 }
    let st3 ← serMapping fuel st2 items
    let st4 := serNewline st3 "\x7d"
    .ok { st4 with indent := st4.indent - 1 }

/-- `Serializer.serialize_list`. -/
def serListS : Nat → SerState → List PyObj → Except PyErr SerState
  | 0, _, _ => .error .outOfFuel
  | fuel + 1, st, items => do
    let st1 := serNewline st "["
    let st2 := { st1 with indent := st1.indent + 1 }
    let st3 ← serItems fuel st2 items
    let st4 := serNewline st3 "]"
    .ok { st4 with indent := st4.indent - 1 }

/-- The loop of `Serializer.serialize_list`. -/
def serItems : Nat → SerState → List PyObj → Except PyErr SerState
  | 0, _, _ => .error .outOfFuel
  | _ + 1, st, [] => .ok st
  | fuel + 1, st, v :: rest => do
    let st2 ← serValue fuel st v
    serItems fuel st2 rest

/-- `Serializer.serialize_value`. -/
def serValue : Nat → SerState → PyObj → Except PyErr SerState
  | 0, _, _ => .error .outOfFuel
  | fuel + 1, st, v =>
    match v with
    | .dict items => serDict fuel st items
    | .list items => serListS fuel st items
    | v =>
      let text := pyStrOf v
      if text.data.contains '\n' then .ok (serTextblock st text)
      else if pyStrip text = text && pyIsAlnum (removeWs text) then
        .ok (serNewline st text)
      else do
        let q ← quotedString text
        .ok (serNewline st q)

end

mutual

/-- Depth bound for the serializer fuel. -/
def depthP : PyObj → Nat
  | .str _ => 1
  | .int _ => 1
  | .dict items => 1 + depthPairs items
  | .list items => 1 + depthList items

/-- Auxiliary of `depthP`. -/
def depthPairs : List (PyObj × PyObj) → Nat
  | [] => 0
  | (_, v) :: rest => 1 + depthP v + depthPairs rest

/-- Auxiliary of `depthP`. -/
def depthList : List PyObj → Nat
  | [] => 0
  | v :: rest => 1 + depthP v + depthList rest

end

/-- `perky.dumps`.  Only dict arguments occur (anything else would fail
looking up `.items()`). -/
def dumps (o : PyObj) : Except PyErr String :=
  match o with
  | .dict items => do
    let st ← serMapping (depthP o + 2) ⟨0, [], ""⟩ items
    .ok (joinNl st.lines)
  | _ => .error (.typeError "dumps argument must be a dict")

/-! # Theorems

First some association-list bookkeeping shared by several claims, then
one theorem per claim (with witnesses and counterexamples where the
claim's status calls for them). -/

theorem lookupD_nil (k : String) : lookupD [] k = none := rfl

theorem lookupD_cons (k1 : String) (v1 : Value) (d : PDict) (k : String) :
    lookupD ((k1, v1) :: d) k = if k1 == k then some v1 else lookupD d k := by
  by_cases h : k1 == k
  · simp [lookupD, List.find?, h]
  · simp only [Bool.not_eq_true] at h
    simp [lookupD, List.find?, h]

theorem lookupD_dictInsert_self (d : PDict) (k : String) (v : Value) :
    lookupD (dictInsert d k v) k = some v := by
  induction d with
  | nil => simp [dictInsert, lookupD, List.find?]
  | cons p rest ih =>
    obtain ⟨k1, v1⟩ := p
    by_cases h : k1 == k
    · simp [dictInsert, h, lookupD, List.find?]
    · simp only [Bool.not_eq_true] at h
      simp [dictInsert, h, lookupD_cons, ih]

theorem lookupD_dictInsert_ne (d : PDict) (k k2 : String) (v : Value) (h : k ≠ k2) :
    lookupD (dictInsert d k v) k2 = lookupD d k2 := by
  induction d with
  | nil => simp [dictInsert, lookupD_cons, lookupD_nil, h]
  | cons p rest ih =>
    obtain ⟨k1, v1⟩ := p
    by_cases h1 : k1 == k
    · have h1e : k1 = k := by simpa using h1
      subst h1e
      simp [dictInsert, lookupD_cons, h, beq_iff_eq]
    · simp only [Bool.not_eq_true] at h1
      simp [dictInsert, h1, lookupD_cons, ih]

theorem lookupD_eq_none_of_not_any (d : PDict) (k : String)
    (h : d.any (fun p => p.1 == k) = false) : lookupD d k = none := by
  induction d with
  | nil => rfl
  | cons p rest ih =>
    obtain ⟨k1, v1⟩ := p
    simp only [List.any_cons, Bool.or_eq_false_iff] at h
    simp [lookupD_cons, h.1, ih h.2]

theorem any_eq_true_of_lookupD_isSome (d : PDict) (k : String)
    (h : (lookupD d k).isSome = true) : d.any (fun p => p.1 == k) = true := by
  by_contra hc
  simp only [Bool.not_eq_true] at hc
  rw [lookupD_eq_none_of_not_any d k hc] at h
  simp at h

/-- C1: the round-trip property fails before any parsing can happen:
serializing the single-entry mapping with key and value `"a"` (an
instance of the claim's mapping with a printable non-whitespace
character as key and value) does not produce a document at all.
`Serializer.quoted_string` evaluates the undefined global
`non_quote_operators` (the tokenizer module only defines
`non_quoting_operators`), so `dumps` raises `NameError` for every
alphanumeric key, and `parse(serialize(t))` can never return `t`. -/
theorem c1_roundtrip_dumps_name_error :
    dumps (PyObj.dict [(PyObj.str "a", PyObj.str "a")])
      = .error (.nameError "non_quote_operators") := rfl

/-- C2 (counterexample): parsing the claim's `main` document with the
include machinery does not produce a mapping with `y=3` and `x=1`: the
parse aborts with a `TypeError` on the directive line, because
`_read_dict` invokes `self._parse_pragma()` without the required
`line` argument, before any registered handler can run. -/
theorem c2_include_scenario_raises :
    loads "x=1\n=include sub"
      = .error (.typeError "_parse_pragma() missing 1 required positional argument: \x27line\x27") := rfl

/-- C2 (amended): the directive line raises `TypeError` before any
handler is reached; and even at the include site's own merge —
`merge_dicts_and_lists(leaf, subroot)` with the enclosing container
first — the later root (the included file) wins scalar conflicts, so
the merge of `{x:1}` with `{x:2, y:3}` is `{x:2, y:3}`, not `x=1`. -/
theorem c2_include_merge_direction :
    loads "x=1\n=include sub"
      = .error (.typeError "_parse_pragma() missing 1 required positional argument: \x27line\x27")
    ∧ merge_dicts_and_lists
        [Value.dict [("x", Value.str "1")], Value.dict [("x", Value.str "2"), ("y", Value.str "3")]]
      = .ok (.dict [("x", .str "2"), ("y", .str "3")]) :=
  ⟨rfl, rfl⟩

/-- C3: re-declaring a key inside one container during one parse is a
fatal duplicate-key `PerkyFormatError`, as claimed; but the claim's
other half fails on this code: composition of two documents via the
include directive is impossible, because every directive line raises
`TypeError` (`self._parse_pragma()` is called without its required
`line` argument), so the parse of a document using `=include` never
reaches the second declaration at all. -/
theorem c3_duplicate_key_and_include :
    loads "a=3\na=5" = .error (.formatError "Invalid Perky dict: repeated key \x27a\x27")
    ∧ loads "a=3\n=include other\na=5"
      = .error (.typeError "_parse_pragma() missing 1 required positional argument: \x27line\x27") :=
  ⟨rfl, rfl⟩

/-- C6: a line whose first non-whitespace character is `=` is
dispatched to `self._parse_pragma()` — with the required `line`
argument missing — so instead of lower-casing the name, consulting the
registry and raising the documented "Unknown pragma" `DirectiveError`,
every directive line (here `=balloon`, with no handler registered)
raises `TypeError`. -/
theorem c6_directive_line_type_error :
    loads "=balloon"
      = .error (.typeError "_parse_pragma() missing 1 required positional argument: \x27line\x27") := rfl

/-- C8 (counterexample): a document opening a nested mapping that is
never closed does not fail: the parse returns the tree as if the brace
had been closed, because end-of-input simply ends the parser's
line-iteration loop (`LineParser.__next__`'s `StopIteration` ends the
`for` loop in `_read_dict`). -/
theorem c8_unclosed_brace_returns_tree :
    loads "a=\x7b\nb=1" = .ok (.dict [("a", .dict [("b", .str "1")])]) := rfl

/-- C8 (amended): reaching end-of-input with an unclosed `\x7b` or `[`
silently treats the container as closed — for mappings, for sequences,
and for a brace followed by no lines at all — and parsing returns the
tree with no error. -/
theorem c8_unclosed_brackets_implicit_close :
    loads "a=[\nq" = .ok (.dict [("a", .list [.str "q"])])
    ∧ loads "a=\x7b" = .ok (.dict [("a", .dict [])]) :=
  ⟨rfl, rfl⟩

/-- C9 (counterexample): not every engine failure is the single
`PerkyFormatError` kind: an unterminated quoted string aborts the
parse with the `SyntaxError` raised by `ast.literal_eval`
(`literalError` in this embedding, a constructor distinct from
`formatError`). -/
theorem c9_unterminated_string_not_format_error :
    loads "a = \x27unterminated" = .error .literalError := rfl

/-- C9 (amended): structural parse errors do raise `PerkyFormatError`,
but lexer and serializer failures escape as other exception kinds: a
triple quote followed by non-whitespace raises `RuntimeError`, a
non-string mapping key at serialization time raises `RuntimeError`,
and an unterminated quoted string raises `SyntaxError` (previous
theorem), while a wrong token shape stays a `PerkyFormatError`. -/
theorem c9_error_kinds :
    loads "a = \x27\x27\x27 junk"
      = .error (.runtimeError "tokenizer: found triple-quote followed by non-whitespace string \x27 junk\x27")
    ∧ dumps (PyObj.dict [(PyObj.int 3, PyObj.str "14")])
      = .error (.runtimeError "keys in perky dicts must always be strings!")
    ∧ loads "x"
      = .error (.formatError "Invalid token sequence: in dict, expected STRING = or STRING == VALUE or \x7d") :=
  ⟨rfl, rfl, rfl⟩

theorem mdalListE_map (ls : List (List Value)) :
    mdalListE (ls.map Value.list) = .ok ls.flatten := by
  induction ls with
  | nil => rfl
  | cons l rest ih => simp [mdalListE, ih, bind, Except.bind]

/-- C5: merging a non-empty family of sequences concatenates them in
argument order — elements are never deduplicated or merged
recursively, every element of every input appears verbatim in the
concatenation. -/
theorem c5_merge_lists_concat (ls : List (List Value)) (h : ls ≠ []) :
    merge_dicts_and_lists (ls.map Value.list) = .ok (.list ls.flatten) := by
  match ls, h with
  | l0 :: rest, _ =>
    have h2 := mdalListE_map (l0 :: rest)
    simp only [List.map_cons] at h2
    simp [merge_dicts_and_lists, h2, bind, Except.bind, pure, Except.pure]

/-- C5 witness: `merge([1,2],[3,4]) == [1,2,3,4]` with perky's
string scalars. -/
theorem c5_merge_lists_concat_witness :
    merge_dicts_and_lists
        [Value.list [Value.str "1", Value.str "2"], Value.list [Value.str "3", Value.str "4"]]
      = .ok (.list [Value.str "1", Value.str "2", Value.str "3", Value.str "4"]) := by
  have h := c5_merge_lists_concat
    [[Value.str "1", Value.str "2"], [Value.str "3", Value.str "4"]] (by simp)
  simpa using h

/-- C10: on every mapping line whose tokens are STRING `s`, EQUALS,
STRING `v`, the parser strips leading and trailing whitespace from the
lexer's key text before both the duplicate-key check and storage: if
the stripped key was already declared the parse fails with the
duplicate-key error for the *stripped* key, otherwise the stripped key
is stored.  Consequently (concrete halves) a quoted key `" a "` is
stored as `"a"`, and a plain `a` followed by a quoted `" a "` in the
same container is a duplicate-key error. -/
theorem c10_key_stripping :
    (∀ (l s v : String), tokenizeStr l = .ok [Tok.string s, Tok.equals, Tok.string v] →
      ∀ (f : Nat) (d : PDict) (seen : List String),
        readDict (f + 2) d seen [l]
          = if seen.contains (pyStrip s) then
              .error (.formatError ("Invalid Perky dict: repeated key " ++ pyReprStr (pyStrip s)))
            else .ok (dictInsert d (pyStrip s) (.str v), []))
    ∧ loads "\x22 a \x22 = 1" = .ok (.dict [("a", .str "1")])
    ∧ loads "a = 1\n\x27 a \x27 = 2"
      = .error (.formatError "Invalid Perky dict: repeated key \x27a\x27") := by
  refine ⟨?_, rfl, rfl⟩
  intro l s v hl f d seen
  by_cases hc : pyStrip s ∈ seen
  · simp [readDict, nextTokenLine, hl, bind, Except.bind, hc, repeatedKeyError]
  · simp [readDict, nextTokenLine, hl, bind, Except.bind, hc, parseValue, Tok.text,
      repeatedKeyError]

/-- C10 witness: the quoted key `' a '` on the line `' a ' = 1`
tokenizes to the STRING `" a "`, and feeding that line to the dict
reader with `"a"` already declared is the duplicate-key error for the
stripped key. -/
theorem c10_key_stripping_witness :
    tokenizeStr "\x27 a \x27 = 1" = .ok [Tok.string " a ", Tok.equals, Tok.string "1"]
    ∧ readDict 2 [] ["a"] ["\x27 a \x27 = 1"]
      = .error (.formatError "Invalid Perky dict: repeated key \x27a\x27") := by
  constructor
  · rfl
  · have h := c10_key_stripping.1 "\x27 a \x27 = 1" " a " "1" rfl 0 [] ["a"]
    exact h.trans rfl

theorem takeWhile_space_append (a b : List Char) (ha : a.all isPySpace = true)
    (hb : ∀ c cs, b = c :: cs → isPySpace c = false) :
    (a ++ b).takeWhile isPySpace = a := by
  induction a with
  | nil =>
    cases b with
    | nil => rfl
    | cons c cs => simp [List.takeWhile_cons, hb c cs rfl]
  | cons x xs ih =>
    simp only [List.all_cons, Bool.and_eq_true] at ha
    simp [List.takeWhile_cons, ha.1, ih ha.2]

theorem dropWhile_space_append (a b : List Char) (ha : a.all isPySpace = true)
    (hb : ∀ c cs, b = c :: cs → isPySpace c = false) :
    (a ++ b).dropWhile isPySpace = b := by
  induction a with
  | nil =>
    cases b with
    | nil => rfl
    | cons c cs => simp [List.dropWhile_cons, hb c cs rfl]
  | cons x xs ih =>
    simp only [List.all_cons, Bool.and_eq_true] at ha
    simp [List.dropWhile_cons, ha.1, ih ha.2]

theorem textblockCollect_append (marker : String) (body : List String) (closing : String)
    (rest : List String)
    (hbody : ∀ l ∈ body, pyLstrip (pyRstrip l) ≠ marker)
    (hclose : pyLstrip (pyRstrip closing) = marker) :
    textblockCollect marker (body ++ closing :: rest)
      = some (body.map pyRstrip, pyRstrip closing, rest) := by
  induction body with
  | nil => simp [textblockCollect, hclose]
  | cons l more ih =>
    have hl : pyLstrip (pyRstrip l) ≠ marker := hbody l (by simp)
    have ih2 := ih (fun x hx => hbody x (by simp [hx]))
    simp [textblockCollect, hl, ih2]

/-- C7: reading a text block whose closing-delimiter line is the
whitespace `p` followed by the marker takes `p` as the block's margin.
When the margin is non-empty, if some collected body line (right
stripping happens at collection) is neither empty nor an extension of
the margin, the parse fails with the malformed-triple-quoted-block
error; otherwise the block's value is the body lines right-trimmed,
with the margin removed, joined with newlines — in particular a
delimiter indented four spaces strips exactly those four spaces from
each body line (see the witness). -/
theorem c7_textblock_margin
    (marker p closing : String) (body rest : List String)
    (hmk : (marker.data.take 1).all (fun c => !isPySpace c) = true)
    (hp : p.data.all isPySpace = true)
    (hclose : (pyRstrip closing).data = p.data ++ marker.data)
    (hbody : ∀ l ∈ body, pyLstrip (pyRstrip l) ≠ marker) :
    ((∀ l ∈ body, (pyRstrip l).data = [] ∨ p.data.isPrefixOf (pyRstrip l).data = true) →
      readTextblock marker (body ++ closing :: rest)
        = .ok (joinNl (body.map (fun l => dropPre p (pyRstrip l))), rest))
    ∧ ((p.data ≠ [] ∧ ∃ l ∈ body, (pyRstrip l).data ≠ [] ∧ p.data.isPrefixOf (pyRstrip l).data = false) →
      readTextblock marker (body ++ closing :: rest)
        = .error (.formatError "Format error: malformed line triple-quoted block")) := by
  have hmk2 : ∀ c cs, marker.data = c :: cs → isPySpace c = false := by
    intro c cs h
    rw [h] at hmk
    simpa using hmk
  have hcl2 : pyLstrip (pyRstrip closing) = marker := by
    have hd : (pyLstrip (pyRstrip closing)).data = marker.data := by
      show ((pyRstrip closing).data.dropWhile isPySpace) = marker.data
      rw [hclose]
      exact dropWhile_space_append p.data marker.data hp hmk2
    exact String.ext hd
  have hcol := textblockCollect_append marker body closing rest hbody hcl2
  have hmarg : ((pyRstrip closing).data.takeWhile isPySpace) = p.data := by
    rw [hclose]
    exact takeWhile_space_append p.data marker.data hp hmk2
  constructor
  · intro hall
    have hAll : (body.map pyRstrip).all
        (fun l => l.data.isEmpty || p.data.isPrefixOf l.data) = true := by
      rw [List.all_map, List.all_eq_true]
      intro x hx
      rcases hall x hx with h | h
      · simp [Function.comp, h]
      · simp [Function.comp, h]
    simp only [readTextblock, hcol, hmarg]
    have hmkp : String.mk p.data = p := rfl
    rw [hmkp, hAll]
    simp [List.map_map, Function.comp_def]
  · rintro ⟨hp0, l0, hl0, hne, hnp⟩
    have hAllF : (body.map pyRstrip).all
        (fun l => l.data.isEmpty || p.data.isPrefixOf l.data) = false := by
      cases hA : (body.map pyRstrip).all
          (fun l => l.data.isEmpty || p.data.isPrefixOf l.data) with
      | false => rfl
      | true =>
        rw [List.all_map, List.all_eq_true] at hA
        have h0 := hA l0 hl0
        simp only [Function.comp, Bool.or_eq_true] at h0
        rcases h0 with h | h
        · exact absurd (by simpa using h) hne
        · exact absurd h (by simp [hnp])
    have hpe : p.data.isEmpty = false := by
      cases hpd : p.data with
      | nil => exact absurd hpd hp0
      | cons c cs => simp [hpd]
    simp only [readTextblock, hcol, hmarg]
    have hmkp : String.mk p.data = p := rfl
    rw [hmkp, hAllF, hpe]
    simp

/-- C7 witness: a block whose closing delimiter is indented four
spaces strips exactly four spaces from each body line (blank lines
pass), and an outdented body line is the malformed-block error. -/
theorem c7_textblock_margin_witness :
    readTextblock "\x27\x27\x27" ["        code", "", "    x", "    \x27\x27\x27", "after"]
      = .ok ("    code\n\nx", ["after"])
    ∧ readTextblock "\x27\x27\x27" ["  bad", "    \x27\x27\x27", "after"]
      = .error (.formatError "Format error: malformed line triple-quoted block") := by
  constructor
  · have h := (c7_textblock_margin "\x27\x27\x27" "    " "    \x27\x27\x27"
      ["        code", "", "    x"] ["after"]
      (by decide) (by decide) (by decide) (by decide)).1
      (by decide)
    exact h.trans rfl
  · have h := (c7_textblock_margin "\x27\x27\x27" "    " "    \x27\x27\x27"
      ["  bad"] ["after"]
      (by decide) (by decide) (by decide) (by decide)).2
      ⟨by decide, "  bad", by decide, by decide, by decide⟩
    exact h

theorem uniqueKeys_cons (k0 : String) (v0 : Value) (more : PDict)
    (h : uniqueKeys ((k0, v0) :: more) = true) :
    more.any (fun p => p.1 == k0) = false ∧ uniqueKeys more = true := by
  simpa [uniqueKeys, Bool.and_eq_true, Bool.not_eq_true'] using h

theorem mdalDictF_single (f : Nat) (r : PDict) :
    mdalDictF f [Value.dict r] = .ok r := by
  cases f <;> rfl

/-- Processing one root with no remaining roots (`_mdal_dict`'s loop
body for the last root): container values already present in the
accumulator are skipped, everything else is stored (a sole-root
container "merge" is a copy). -/
theorem mdalRoot_rest_nil
    (sub : List Value → Except PyErr PDict)
    (hsub : ∀ r : PDict, sub [Value.dict r] = .ok r) :
    ∀ (items d m : PDict), uniqueKeys items = true →
      mdalRoot sub d items [] = .ok m →
      ∀ k,
        lookupD m k =
          match lookupD items k with
          | none => lookupD d k
          | some vb =>
            if isContainerV vb && (lookupD d k).isSome then lookupD d k else some vb := by
  intro items
  induction items with
  | nil =>
    intro d m _ hok k
    have hm : d = m := by simpa [mdalRoot] using hok
    subst hm
    simp [lookupD_nil]
  | cons p more ih =>
    obtain ⟨k0, v0⟩ := p
    intro d m hu hok k
    obtain ⟨h1, h2⟩ := uniqueKeys_cons k0 v0 more hu
    have hmore0 : lookupD more k0 = none := lookupD_eq_none_of_not_any more k0 h1
    by_cases hcont : isContainerV v0 = true
    · by_cases hd0 : (lookupD d k0).isSome = true
      · have hok2 : mdalRoot sub d more [] = .ok m := by
          simpa [mdalRoot, hcont, hd0] using hok
        have IH := ih d m h2 hok2
        by_cases hk : k = k0
        · subst hk
          rw [IH k, hmore0]
          simp [lookupD_cons, hcont, hd0]
        · have hbk : (k0 == k) = false := by
            rw [beq_eq_false_iff_ne]
            exact fun h => hk h.symm
          rw [IH k]
          simp [lookupD_cons, hbk]
      · have hd0n : lookupD d k0 = none := by
          cases hq : lookupD d k0 with
          | none => rfl
          | some u => rw [hq] at hd0; simp at hd0
        cases v0 with
        | str s0 => simp [isContainerV] at hcont
        | dict da =>
          have hok2 : mdalRoot sub (dictInsert d k0 (Value.dict da)) more [] = .ok m := by
            simpa [mdalRoot, isContainerV, hd0n, collectKey, bind, Except.bind, hsub] using hok
          have IH := ih (dictInsert d k0 (Value.dict da)) m h2 hok2
          by_cases hk : k = k0
          · subst hk
            rw [IH k, hmore0, lookupD_dictInsert_self]
            simp [lookupD_cons, hd0n, isContainerV]
          · have hbk : (k0 == k) = false := by
              rw [beq_eq_false_iff_ne]
              exact fun h => hk h.symm
            rw [IH k, lookupD_dictInsert_ne d k0 k _ (fun h => hk h.symm)]
            simp [lookupD_cons, hbk]
        | list la =>
          have hok2 : mdalRoot sub (dictInsert d k0 (Value.list la)) more [] = .ok m := by
            simpa [mdalRoot, isContainerV, hd0n, collectKey, mdalListE, bind, Except.bind]
              using hok
          have IH := ih (dictInsert d k0 (Value.list la)) m h2 hok2
          by_cases hk : k = k0
          · subst hk
            rw [IH k, hmore0, lookupD_dictInsert_self]
            simp [lookupD_cons, hd0n, isContainerV]
          · have hbk : (k0 == k) = false := by
              rw [beq_eq_false_iff_ne]
              exact fun h => hk h.symm
            rw [IH k, lookupD_dictInsert_ne d k0 k _ (fun h => hk h.symm)]
            simp [lookupD_cons, hbk]
    · have hcf : isContainerV v0 = false := by simpa using hcont
      have hok2 : mdalRoot sub (dictInsert d k0 v0) more [] = .ok m := by
        simpa [mdalRoot, hcf] using hok
      have IH := ih (dictInsert d k0 v0) m h2 hok2
      by_cases hk : k = k0
      · subst hk
        rw [IH k, hmore0, lookupD_dictInsert_self]
        simp [lookupD_cons, hcf]
      · have hbk : (k0 == k) = false := by
          rw [beq_eq_false_iff_ne]
          exact fun h => hk h.symm
        rw [IH k, lookupD_dictInsert_ne d k0 k _ (fun h => hk h.symm)]
        simp [lookupD_cons, hbk]

/-- Processing a root with exactly one remaining root `B`
(`_mdal_dict`'s loop body for the first of two roots, accumulating
into a dict disjoint from the keys still to process): scalars are
stored as-is; a container value collects `B`'s value at the same key —
two dicts go through the recursive dict merge, two lists are
concatenated — and a key absent from `B` stores the container
unchanged. -/
theorem mdalRoot_rest_one
    (sub : List Value → Except PyErr PDict)
    (hsub : ∀ r : PDict, sub [Value.dict r] = .ok r)
    (B : PDict) :
    ∀ (items d m : PDict), uniqueKeys items = true →
      (∀ k2, items.any (fun p => p.1 == k2) = true → lookupD d k2 = none) →
      mdalRoot sub d items [B] = .ok m →
      ∀ k,
        (lookupD items k = none → lookupD m k = lookupD d k)
        ∧ (∀ va, lookupD items k = some va →
            (isContainerV va = false → lookupD m k = some va)
            ∧ (∀ da, va = Value.dict da →
                (lookupD B k = none → lookupD m k = some va)
                ∧ (∀ db, lookupD B k = some (Value.dict db) →
                    ∃ w, sub [Value.dict da, Value.dict db] = .ok w
                      ∧ lookupD m k = some (Value.dict w)))
            ∧ (∀ la, va = Value.list la →
                (lookupD B k = none → lookupD m k = some va)
                ∧ (∀ lb, lookupD B k = some (Value.list lb) →
                    lookupD m k = some (Value.list (la ++ lb))))) := by
  intro items
  induction items with
  | nil =>
    intro d m _ _ hok k
    have hm : d = m := by simpa [mdalRoot] using hok
    subst hm
    refine ⟨fun _ => rfl, ?_⟩
    intro va hva
    rw [lookupD_nil] at hva
    exact absurd hva (by simp)
  | cons p more ih =>
    obtain ⟨k0, v0⟩ := p
    intro d m hu hd hok k
    obtain ⟨h1, h2⟩ := uniqueKeys_cons k0 v0 more hu
    have hmore0 : lookupD more k0 = none := lookupD_eq_none_of_not_any more k0 h1
    have hd0 : lookupD d k0 = none := by
      apply hd k0
      simp [List.any_cons]
    have hd0s : (lookupD d k0).isSome = false := by rw [hd0]; rfl
    have hdnext : ∀ w, ∀ k2, more.any (fun p => p.1 == k2) = true →
        lookupD (dictInsert d k0 w) k2 = none := by
      intro w k2 hk2
      have hne : k0 ≠ k2 := by
        intro he
        subst he
        rw [hk2] at h1
        exact absurd h1 (by simp)
      rw [lookupD_dictInsert_ne d k0 k2 w hne]
      apply hd k2
      simp [List.any_cons, hk2]
    -- a helper closing the k ≠ k0 case uniformly once we have the
    -- recursive characterization for the updated accumulator
    have transfer : ∀ (w : Value) (hok2 : mdalRoot sub (dictInsert d k0 w) more [B] = .ok m),
        k ≠ k0 →
        (lookupD ((k0, v0) :: more) k = none → lookupD m k = lookupD d k)
        ∧ (∀ va, lookupD ((k0, v0) :: more) k = some va →
            (isContainerV va = false → lookupD m k = some va)
            ∧ (∀ da, va = Value.dict da →
                (lookupD B k = none → lookupD m k = some va)
                ∧ (∀ db, lookupD B k = some (Value.dict db) →
                    ∃ w2, sub [Value.dict da, Value.dict db] = .ok w2
                      ∧ lookupD m k = some (Value.dict w2)))
            ∧ (∀ la, va = Value.list la →
                (lookupD B k = none → lookupD m k = some va)
                ∧ (∀ lb, lookupD B k = some (Value.list lb) →
                    lookupD m k = some (Value.list (la ++ lb))))) := by
      intro w hok2 hk
      have hbk : (k0 == k) = false := by
        rw [beq_eq_false_iff_ne]
        exact fun h => hk h.symm
      have IH := ih (dictInsert d k0 w) m h2 (hdnext w) hok2 k
      constructor
      · intro hnone
        rw [lookupD_cons] at hnone
        simp [hbk] at hnone
        have := IH.1 hnone
        rwa [lookupD_dictInsert_ne d k0 k w (fun h => hk h.symm)] at this
      · intro va hva
        rw [lookupD_cons] at hva
        simp [hbk] at hva
        exact IH.2 va hva
    by_cases hk : k = k0
    case neg =>
      -- the stored value depends on the shape of v0 and B, but the
      -- transfer helper only needs *some* successfully stored value
      by_cases hcont : isContainerV v0 = true
      · cases v0 with
        | str s0 => simp [isContainerV] at hcont
        | dict da =>
          cases hB0 : lookupD B k0 with
          | none =>
            have hok2 : mdalRoot sub (dictInsert d k0 (Value.dict da)) more [B] = .ok m := by
              simpa [mdalRoot, isContainerV, hd0, collectKey, hB0, bind, Except.bind, hsub]
                using hok
            exact transfer (Value.dict da) hok2 hk
          | some vb =>
            cases vb with
            | str sb =>
              exfalso
              simp [mdalRoot, isContainerV, hd0, collectKey, hB0, valueKind,
                bind, Except.bind] at hok
            | dict db =>
              cases hw : sub [Value.dict da, Value.dict db] with
              | error e =>
                exfalso
                simp [mdalRoot, isContainerV, hd0, collectKey, hB0, valueKind,
                  bind, Except.bind, hw] at hok
              | ok w =>
                have hok2 : mdalRoot sub (dictInsert d k0 (Value.dict w)) more [B] = .ok m := by
                  simpa [mdalRoot, isContainerV, hd0, collectKey, hB0, valueKind,
                    bind, Except.bind, hw] using hok
                exact transfer (Value.dict w) hok2 hk
            | list lb =>
              exfalso
              simp [mdalRoot, isContainerV, hd0, collectKey, hB0, valueKind,
                bind, Except.bind] at hok
        | list la =>
          cases hB0 : lookupD B k0 with
          | none =>
            have hok2 : mdalRoot sub (dictInsert d k0 (Value.list la)) more [B] = .ok m := by
              simpa [mdalRoot, isContainerV, hd0, collectKey, hB0, mdalListE,
                bind, Except.bind] using hok
            exact transfer (Value.list la) hok2 hk
          | some vb =>
            cases vb with
            | str sb =>
              exfalso
              simp [mdalRoot, isContainerV, hd0, collectKey, hB0, valueKind,
                bind, Except.bind] at hok
            | dict db =>
              exfalso
              simp [mdalRoot, isContainerV, hd0, collectKey, hB0, valueKind,
                bind, Except.bind] at hok
            | list lb =>
              have hok2 : mdalRoot sub (dictInsert d k0 (Value.list (la ++ lb))) more [B]
                  = .ok m := by
                simpa [mdalRoot, isContainerV, hd0, collectKey, hB0, valueKind, mdalListE,
                  bind, Except.bind] using hok
              exact transfer (Value.list (la ++ lb)) hok2 hk
      · have hcf : isContainerV v0 = false := by simpa using hcont
        have hok2 : mdalRoot sub (dictInsert d k0 v0) more [B] = .ok m := by
          simpa [mdalRoot, hcf] using hok
        exact transfer v0 hok2 hk
    case pos =>
      subst hk
      -- at the processed key itself
      constructor
      · intro hnone
        rw [lookupD_cons] at hnone
        simp at hnone
      · intro va hva
        rw [lookupD_cons] at hva
        simp only [beq_self_eq_true, if_true] at hva
        have hva2 : v0 = va := by simpa using hva
        subst hva2
        by_cases hcont : isContainerV v0 = true
        · cases v0 with
          | str s0 => simp [isContainerV] at hcont
          | dict da =>
            refine ⟨?_, ?_, ?_⟩
            · intro hcf; simp [isContainerV] at hcf
            · intro da2 hda2
              have hda2e : da = da2 := by simpa using hda2
              subst hda2e
              constructor
              · intro hB0
                have hok2 : mdalRoot sub (dictInsert d k (Value.dict da)) more [B]
                    = .ok m := by
                  simpa [mdalRoot, isContainerV, hd0, collectKey, hB0, bind,
                    Except.bind, hsub] using hok
                have IH := ih (dictInsert d k (Value.dict da)) m h2
                  (hdnext (Value.dict da)) hok2 k
                have := IH.1 hmore0
                rwa [lookupD_dictInsert_self] at this
              · intro db hB0
                cases hw : sub [Value.dict da, Value.dict db] with
                | error e =>
                  exfalso
                  simp [mdalRoot, isContainerV, hd0, collectKey, hB0, valueKind,
                    bind, Except.bind, hw] at hok
                | ok w =>
                  have hok2 : mdalRoot sub (dictInsert d k (Value.dict w)) more [B]
                      = .ok m := by
                    simpa [mdalRoot, isContainerV, hd0, collectKey, hB0, valueKind,
                      bind, Except.bind, hw] using hok
                  have IH := ih (dictInsert d k (Value.dict w)) m h2
                    (hdnext (Value.dict w)) hok2 k
                  have := IH.1 hmore0
                  rw [lookupD_dictInsert_self] at this
                  exact ⟨w, rfl, this⟩
            · intro la hla
              exact absurd hla (by simp)
          | list la =>
            refine ⟨?_, ?_, ?_⟩
            · intro hcf; simp [isContainerV] at hcf
            · intro da hda
              exact absurd hda (by simp)
            · intro la2 hla2
              have hla2e : la = la2 := by simpa using hla2
              subst hla2e
              constructor
              · intro hB0
                have hok2 : mdalRoot sub (dictInsert d k (Value.list la)) more [B]
                    = .ok m := by
                  simpa [mdalRoot, isContainerV, hd0, collectKey, hB0, mdalListE,
                    bind, Except.bind] using hok
                have IH := ih (dictInsert d k (Value.list la)) m h2
                  (hdnext (Value.list la)) hok2 k
                have := IH.1 hmore0
                rwa [lookupD_dictInsert_self] at this
              · intro lb hB0
                have hok2 : mdalRoot sub (dictInsert d k (Value.list (la ++ lb))) more [B]
                    = .ok m := by
                  simpa [mdalRoot, isContainerV, hd0, collectKey, hB0, valueKind,
                    mdalListE, bind, Except.bind] using hok
                have IH := ih (dictInsert d k (Value.list (la ++ lb))) m h2
                  (hdnext (Value.list (la ++ lb))) hok2 k
                have := IH.1 hmore0
                rwa [lookupD_dictInsert_self] at this
        · have hcf : isContainerV v0 = false := by simpa using hcont
          have hok2 : mdalRoot sub (dictInsert d k v0) more [B] = .ok m := by
            simpa [mdalRoot, hcf] using hok
          have IH := ih (dictInsert d k v0) m h2 (hdnext v0) hok2 k
          have hself := IH.1 hmore0
          rw [lookupD_dictInsert_self] at hself
          refine ⟨fun _ => hself, ?_, ?_⟩
          · intro da hda
            subst hda
            simp [isContainerV] at hcf
          · intro la hla
            subst hla
            simp [isContainerV] at hcf

/-- C4: a successful two-dict `_mdal_dict` merge, for Python dicts
(unique keys), behaves per key as the claim describes on same-kind
values: a key present in only one input passes through with its value
unchanged; a key present in both with two mapping values carries the
recursive merge of the two, with two sequence values their
concatenation (the sequence analogue of the recursive merge), and with
two scalars the later input's scalar. -/
theorem c4_merge_two_mappings (f : Nat) (A B m : PDict)
    (hA : uniqueKeys A = true) (hB : uniqueKeys B = true)
    (hok : mdalDictF (f + 1) [Value.dict A, Value.dict B] = .ok m) (k : String) :
    (lookupD A k = none → lookupD m k = lookupD B k)
    ∧ (lookupD B k = none → lookupD m k = lookupD A k)
    ∧ (∀ sa sb, lookupD A k = some (.str sa) → lookupD B k = some (.str sb) →
        lookupD m k = some (.str sb))
    ∧ (∀ da db, lookupD A k = some (.dict da) → lookupD B k = some (.dict db) →
        ∃ w, mdalDictF f [Value.dict da, Value.dict db] = .ok w
          ∧ lookupD m k = some (.dict w))
    ∧ (∀ la lb, lookupD A k = some (.list la) → lookupD B k = some (.list lb) →
        lookupD m k = some (.list (la ++ lb))) := by
  have hsub : ∀ r : PDict, mdalDictF f [Value.dict r] = .ok r :=
    fun r => mdalDictF_single f r
  cases hA2 : mdalRoot (mdalDictF f) [] A [B] with
  | error e =>
    exfalso
    simp [mdalDictF, asDicts, mdalWhile, bind, Except.bind, hA2] at hok
  | ok d2 =>
    cases hB2 : mdalRoot (mdalDictF f) d2 B [] with
    | error e =>
      exfalso
      simp [mdalDictF, asDicts, mdalWhile, bind, Except.bind, hA2, hB2] at hok
    | ok d3 =>
      have hok2 : d3 = m := by
        simpa [mdalDictF, asDicts, mdalWhile, bind, Except.bind, hA2, hB2] using hok
      subst hok2
      have PA := mdalRoot_rest_one (mdalDictF f) hsub B A [] d2 hA
        (fun _ _ => rfl) hA2 k
      have PB := mdalRoot_rest_nil (mdalDictF f) hsub B d2 d3 hB hB2 k
      refine ⟨?_, ?_, ?_, ?_, ?_⟩
      · intro hAn
        have hd2 : lookupD d2 k = none := by
          have := PA.1 hAn
          rwa [lookupD_nil] at this
        rw [PB, hd2]
        cases hBk : lookupD B k with
        | none => simp
        | some vb => simp
      · intro hBn
        cases hAk : lookupD A k with
        | none =>
          have hd2 : lookupD d2 k = none := by
            have := PA.1 hAk
            rwa [lookupD_nil] at this
          rw [PB, hd2, hBn]
        | some va =>
          have hd2 : lookupD d2 k = some va := by
            cases va with
            | str sa => exact (PA.2 (.str sa) hAk).1 rfl
            | dict da => exact ((PA.2 (.dict da) hAk).2.1 da rfl).1 hBn
            | list la => exact ((PA.2 (.list la) hAk).2.2 la rfl).1 hBn
          rw [PB, hBn, hd2]
      · intro sa sb hAk hBk
        have hd2 : lookupD d2 k = some (.str sa) := (PA.2 (.str sa) hAk).1 rfl
        rw [PB, hBk, hd2]
        simp [isContainerV]
      · intro da db hAk hBk
        obtain ⟨w, hw, hd2⟩ := ((PA.2 (.dict da) hAk).2.1 da rfl).2 db hBk
        refine ⟨w, hw, ?_⟩
        rw [PB, hBk, hd2]
        simp [isContainerV]
      · intro la lb hAk hBk
        have hd2 : lookupD d2 k = some (.list (la ++ lb)) :=
          ((PA.2 (.list la) hAk).2.2 la rfl).2 lb hBk
        rw [PB, hBk, hd2]
        simp [isContainerV]

/-- C4 witness: merging `{x:1, d:{i:a}, l:[p]}` with
`{d:{j:b}, l:[q], x:9, y:2}` — both-scalar key `x` takes the later
value, both-dict key `d` the recursive merge, both-list key `l` the
concatenation, and the one-sided key `y` passes through. -/
theorem c4_merge_two_mappings_witness :
    mdalDictF 2
        [Value.dict [("x", Value.str "1"), ("d", Value.dict [("i", Value.str "a")]),
           ("l", Value.list [Value.str "p"])],
         Value.dict [("d", Value.dict [("j", Value.str "b")]),
           ("l", Value.list [Value.str "q"]), ("x", Value.str "9"), ("y", Value.str "2")]]
      = .ok [("x", Value.str "9"),
             ("d", Value.dict [("i", Value.str "a"), ("j", Value.str "b")]),
             ("l", Value.list [Value.str "p", Value.str "q"]), ("y", Value.str "2")]
    ∧ lookupD [("x", Value.str "9"),
             ("d", Value.dict [("i", Value.str "a"), ("j", Value.str "b")]),
             ("l", Value.list [Value.str "p", Value.str "q"]), ("y", Value.str "2")] "x"
      = some (Value.str "9")
    ∧ (∃ w, mdalDictF 1 [Value.dict [("i", Value.str "a")], Value.dict [("j", Value.str "b")]]
          = .ok w
        ∧ lookupD [("x", Value.str "9"),
             ("d", Value.dict [("i", Value.str "a"), ("j", Value.str "b")]),
             ("l", Value.list [Value.str "p", Value.str "q"]), ("y", Value.str "2")] "d"
          = some (Value.dict w))
    ∧ lookupD [("x", Value.str "9"),
             ("d", Value.dict [("i", Value.str "a"), ("j", Value.str "b")]),
             ("l", Value.list [Value.str "p", Value.str "q"]), ("y", Value.str "2")] "l"
      = some (Value.list ([Value.str "p"] ++ [Value.str "q"]))
    ∧ lookupD [("x", Value.str "9"),
             ("d", Value.dict [("i", Value.str "a"), ("j", Value.str "b")]),
             ("l", Value.list [Value.str "p", Value.str "q"]), ("y", Value.str "2")] "y"
      = some (Value.str "2") := by
  have base := c4_merge_two_mappings 1
    [("x", Value.str "1"), ("d", Value.dict [("i", Value.str "a")]),
     ("l", Value.list [Value.str "p"])]
    [("d", Value.dict [("j", Value.str "b")]), ("l", Value.list [Value.str "q"]),
     ("x", Value.str "9"), ("y", Value.str "2")]
    [("x", Value.str "9"),
     ("d", Value.dict [("i", Value.str "a"), ("j", Value.str "b")]),
     ("l", Value.list [Value.str "p", Value.str "q"]), ("y", Value.str "2")]
    rfl rfl rfl
  refine ⟨rfl, ?_, ?_, ?_, ?_⟩
  · exact (base "x").2.2.1 "1" "9" rfl rfl
  · exact (base "d").2.2.2.1 [("i", Value.str "a")] [("j", Value.str "b")] rfl rfl
  · exact (base "l").2.2.2.2 [Value.str "p"] [Value.str "q"] rfl rfl
  · exact (base "y").1 rfl

end Perky
